import Mathlib

/-!
Shallow embedding of the git-http-backend server (source files `main.go` and
`git_rpc_client.go`) and verification of its specification.

Conventions of the embedding:
* Go strings are modelled as `String`; Go `len` counts UTF-8 bytes, which is
  `String.utf8ByteSize` here.
* Byte sequences exchanged with the backend subprocess are opaque to this
  layer and are modelled as `String`s as well.
* The results of external effects (the `Output` of the spawned subprocess,
  the file system, the gzip decoder) are passed to the handler functions as
  explicit parameters: a handler is a pure function of the request data and
  of those oracle values.
* Machine integers do not occur: every number involved (string lengths,
  status codes, ports) is far below any overflow boundary, so `Nat` is used
  directly.
-/

namespace GitHttpBackend

/-! ### Frame codec (main.go, `pktWrite` / `pktFlush`) -/

/-- Embedding of Go `strconv.FormatInt (int64 n) 16` for a non-negative `n`:
the lowercase hexadecimal digits of `n` with no leading zeros (and `"0"` for
zero), which is exactly what `Nat.toDigits 16` produces. -/
def formatIntHex (n : Nat) : String :=
  String.mk (Nat.toDigits 16 n)

/-- Embedding of Go `fmt.Sprintf "%04s" t`: the `0` flag makes `fmt` pad on
the left with the character `'0'` up to a minimum width of 4; a string that
is already 4 or more characters wide is returned unchanged (a width never
truncates). -/
def sprintf04s (t : String) : String :=
  String.mk (List.replicate (4 - t.length) '0') ++ t

/-- main.go `pktWrite` (lines 260-264): hex length prefix of `len(s)+4`,
formatted with `%04s`, followed by `s`.  Go `len` is the UTF-8 byte count. -/
def pktWrite (s : String) : String :=
  sprintf04s (formatIntHex (s.utf8ByteSize + 4)) ++ s

/-- main.go `pktFlush` (lines 266-268). -/
def pktFlush : String :=
  "0000"

/-! ### Process bridge (git_rpc_client.go) -/

/-- The Go constant `uploadPack` from main.go. -/
def uploadPack : String := "git-upload-pack"

/-- The Go constant `receivePack` from main.go. -/
def receivePack : String := "git-receive-pack"

/-- The `RPCConfig` map filled in by `NewGitRPCClient` (git_rpc_client.go
lines 30-39): the single translation from the abstract option key
`"advertise_refs"` to the backend flag `"--advertise-refs"`. -/
def rpcTranslation : List (String × String) :=
  [("advertise_refs", "--advertise-refs")]

/-- Go map indexing `m[k]` on a `map[string]string`: the stored value when
the key is present, and the zero value `""` when it is absent. -/
def goMapIndex (m : List (String × String)) (k : String) : String :=
  match m.find? (fun p => p.1 == k) with
  | some p => p.2
  | none => ""

/-- The argument vector built by `UploadPack`, `ReceivePack` and
`UpdateServerInfo` (git_rpc_client.go lines 68-77, 80-89, 94-107): the verb,
then `gs.RPCConfig[k]` for each key `k` of the option set, then
`"--stateless-rpc"` and the repository path.  The Go code ranges over a
`map[string]struct{}`, whose iteration order is unspecified; the parameter
`cfg` is that iteration sequence.  Every call site passes either the empty
set or the singleton `{"advertise_refs"}`, for which the order is moot. -/
def buildArgs (verb : String) (cfg : List String) (repoPath : String) : List String :=
  verb :: (cfg.map (goMapIndex rpcTranslation) ++ ["--stateless-rpc", repoPath])

/-- Argument vector of `GitRPCClient.UploadPack` (git_rpc_client.go 68-77). -/
def uploadPackArgs (repoPath : String) (cfg : List String) : List String :=
  buildArgs "upload-pack" cfg repoPath

/-- Argument vector of `GitRPCClient.ReceivePack` (git_rpc_client.go 80-89). -/
def receivePackArgs (repoPath : String) (cfg : List String) : List String :=
  buildArgs "receive-pack" cfg repoPath

/-- Argument vector of `GitRPCClient.UpdateServerInfo` (git_rpc_client.go
94-107). -/
def updateServerInfoArgs (repoPath : String) (cfg : List String) : List String :=
  buildArgs "update-server-info" cfg repoPath

/-- Working-directory trace of `GitRPCClient.UpdateServerInfo`
(git_rpc_client.go lines 94-107).  `os.Getwd` / `os.Chdir` act on the
process-wide current working directory; both `Chdir` error results are
discarded by the code, and we model the normal case in which both
directories exist, so each `Chdir` takes effect.  `exec.Command` records no
working directory (`Cmd.Dir` stays empty), so a child process inherits the
directory that is current at the moment the command is *started* — and the
deferred `os.Chdir(pwd)` runs as soon as `UpdateServerInfo` returns, which
is before any caller can call `Output`/`Start` on the constructed command.
`cwd0` is the working directory on entry. -/
structure UpdateServerInfoTrace where
  args : List String
  /-- the working directory while `exec.Command` is being constructed,
  i.e. after `os.Chdir(repoPath)` -/
  cwdDuringConstruction : String
  /-- the working directory once `UpdateServerInfo` has returned,
  i.e. after the deferred `os.Chdir(pwd)`; this is also the directory in
  which a subsequently started backend process runs -/
  cwdAfterReturn : String
deriving DecidableEq

/-- Embedding of `GitRPCClient.UpdateServerInfo` together with the deferred
working-directory restore that runs on every exit path of the Go function. -/
def updateServerInfo (cwd0 repoPath : String) (cfg : List String) : UpdateServerInfoTrace :=
  { args := updateServerInfoArgs repoPath cfg
    cwdDuringConstruction := repoPath
    cwdAfterReturn := cwd0 }

/-! ### The wire-visible state of a net/http ResponseWriter

Per the net/http contract, the header map is transmitted by the first call
of `WriteHeader` (called implicitly with status 200 by the first `Write` if
the handler never calls it); changing the header map after that point has
no effect on the response.  `committed` records whether that point has been
passed.  Go canonicalizes header keys; all keys used by this program are
already in canonical form, so canonicalization is not modelled.  Content
sniffing is not modelled: every body-writing path of this program sets
`Content-Type` explicitly before the first `Write`, and the one path that
commits without a `Content-Type` writes an empty body, which is never
sniffed. -/

structure Response where
  status : Nat
  headers : List (String × String)
  body : String
  committed : Bool
deriving DecidableEq

/-- A fresh `ResponseWriter`, before the handler has touched it.  `status`
is 0 as a placeholder for "not yet written". -/
def initResponse : Response :=
  { status := 0, headers := [], body := "", committed := false }

/-- Replace the value of key `k` in an association list, or append the pair
when the key is absent (the effect of `http.Header.Set`). -/
def setAssoc (h : List (String × String)) (k v : String) : List (String × String) :=
  if h.any (fun p => p.1 == k) then
    h.map (fun p => if p.1 == k then (k, v) else p)
  else
    h ++ [(k, v)]

/-- Go `w.Header().Set(k, v)`: no effect on the wire once the headers have
been written. -/
def headerSet (w : Response) (k v : String) : Response :=
  if w.committed then w else { w with headers := setAssoc w.headers k v }

/-- Go `w.Header().Add(k, v)`: appends a value for the key.  This program
only uses `Add` on a fresh writer for a key that is not yet present. -/
def headerAdd (w : Response) (k v : String) : Response :=
  if w.committed then w else { w with headers := w.headers ++ [(k, v)] }

/-- Go `w.WriteHeader(code)`: commits the status and the current header
map; a second call has no effect. -/
def writeHeader (w : Response) (code : Nat) : Response :=
  if w.committed then w else { w with status := code, committed := true }

/-- Go `w.Write(data)` (also `fmt.Fprint(w, data)` / `io.Copy(w, src)`):
commits status 200 first if the handler has not called `WriteHeader`, then
appends to the body. -/
def write (w : Response) (data : String) : Response :=
  let w' := if w.committed then w else { w with status := 200, committed := true }
  { w' with body := w'.body ++ data }

/-- Look up a header value in the wire-visible response. -/
def headerGet (w : Response) (k : String) : Option String :=
  (w.headers.find? (fun p => p.1 == k)).map (fun p => p.2)

/-- main.go `setHeaders` (lines 338-342): `Set` every pair.  The Go code
iterates a map in unspecified order; the keys of every map passed here are
distinct, so the resulting header set does not depend on the order, and we
fix the textual order of the map literal. -/
def setHeaders (w : Response) (hdr : List (String × String)) : Response :=
  hdr.foldl (fun acc kv => headerSet acc kv.1 kv.2) w

/-- main.go `hdrNoCache` (lines 319-325). -/
def hdrNoCache : List (String × String) :=
  [("Expires", "Fri, 01 Jan 1980 00:00:00 GMT"),
   ("Pragma", "no-cache"),
   ("Cache-Control", "no-cache, max-age=0, must-revalidate")]

/-! ### Configuration and access policy (main.go) -/

/-- main.go `GitSmartHTTPConfig` (lines 56-61). -/
structure GitSmartHTTPConfig where
  ReposRootPath : String
  ReceivePack : Bool
  UploadPack : Bool
  Port : Nat
deriving DecidableEq

/-- main.go `serviceAccess` (lines 298-308). -/
def serviceAccess (cfg : GitSmartHTTPConfig) (service : String) : Bool :=
  if service == uploadPack then cfg.UploadPack
  else if service == receivePack then cfg.ReceivePack
  else false

/-- main.go `methodNotAllowed` (lines 310-317), applied to a fresh response
writer: `Content-Type` is set before `WriteHeader`, so it is transmitted. -/
def methodNotAllowed (proto : String) : Response :=
  let w := headerSet initResponse "Content-Type" "text/plain"
  if proto == "HTTP/1.1" then writeHeader w 405 else writeHeader w 400

/-! ### Oracles for external effects -/

/-- Result of `gs.Output()` (Go `exec.Cmd.Output`, git_rpc_client.go lines
43-45): the captured standard output of the buffered run, and whether the
run succeeded.  `exec.Cmd.Output` returns the bytes captured up to the
failure point together with the error, so on failure `out` is whatever the
backend managed to write (empty when the process could not even be
spawned). -/
structure BackendResult where
  out : String
  ok : Bool
deriving DecidableEq

/-- What main.go `sendFile` can observe of the file at the request path:
the contents streamed by `io.Copy`, the `Stat` size and the formatted
modification time.  A `Stat` failure on a successfully opened file (the
code prints a diagnostic and sets no status) is not modelled; no claim
touches it. -/
structure FileStat where
  contents : String
  size : Nat
  mtime : String
deriving DecidableEq

/-- Outcome of the gzip decoder on a request body (the oracle for
`compress/gzip` in `handleServiceRPC`). -/
inductive GzipOutcome where
  /-- the body is a well-formed gzip stream with the given decompression -/
  | ok (data : String)
  /-- `gzip.NewReader` fails while reading the stream header and returns a
  nil reader together with the error -/
  | headerError
  /-- the stream header is fine but decompression fails midway;
  `ioutil.ReadAll` returns the data read so far together with the error -/
  | truncated (readSoFar : String)
deriving DecidableEq

/-! ### Handlers (main.go) -/

/-- main.go `sendFile` (lines 270-296).  `file` is `none` when `os.Open`
fails; in that case the handler sets `Content-Type: text/plain` and calls
`http.NotFound`, which itself sets `Content-Type: text/plain;
charset=utf-8` and `X-Content-Type-Options: nosniff` and writes status 404
with body `"404 page not found\n"`.  On success the cache headers, the
content type, the length and the modification time are set and the file
contents are streamed (the first `Write` commits status 200). -/
def sendFile (w : Response) (contentType : String) (hdr : List (String × String))
    (file : Option FileStat) : Response :=
  match file with
  | none =>
    let w := headerSet w "Content-Type" "text/plain"
    let w := headerSet w "Content-Type" "text/plain; charset=utf-8"
    let w := headerSet w "X-Content-Type-Options" "nosniff"
    let w := writeHeader w 404
    write w "404 page not found\n"
  | some f =>
    let w := setHeaders w hdr
    let w := headerSet w "Content-Type" contentType
    let w := headerSet w "Content-Length" (toString f.size)
    let w := headerSet w "Last-Modified" f.mtime
    write w f.contents

/-- One backend invocation: the argument vector handed to the `git`
binary by `exec.Command`. -/
abbrev Invocation := List String

/-- Observable outcome of `handleInfoRefs`: the response and the backend
invocations performed (in order). -/
structure InfoRefsResult where
  resp : Response
  invocations : List Invocation
deriving DecidableEq

/-- main.go `handleInfoRefs` (lines 168-205).  `serviceType` is
`r.FormValue("service")`; `repoPath` is the joined
`path.Join(ReposRootPath, captured repoPath)`; `backend` is the `Output()`
result of the single buffered RPC the handler performs; `file` is the file
at the request URL path, used by the dumb fallback `sendFile`.
When access is granted the handler adds the advertisement `Content-Type`,
sets the no-cache headers, writes status 200, invokes the matching verb
with the option set `{"advertise_refs"}`, discards the `Output` error, and
writes the announcement pkt-line, the flush marker and the captured bytes.
When access is denied it invokes `upload-pack` with an *empty* option set,
discards the result entirely, and serves the file. -/
def handleInfoRefs (cfg : GitSmartHTTPConfig) (serviceType repoPath : String)
    (backend : BackendResult) (file : Option FileStat) : InfoRefsResult :=
  if serviceAccess cfg serviceType then
    let w := headerAdd initResponse "Content-Type"
      ("application/x-" ++ serviceType ++ "-advertisement")
    let w := setHeaders w hdrNoCache
    let w := writeHeader w 200
    let inv := if serviceType == uploadPack then
        uploadPackArgs repoPath ["advertise_refs"]
      else
        receivePackArgs repoPath ["advertise_refs"]
    let refs := backend.out
    let w := write w (pktWrite ("# service=" ++ serviceType ++ "\n"))
    let w := write w pktFlush
    let w := write w refs
    { resp := w, invocations := [inv] }
  else
    { resp := sendFile initResponse "text/plain; charset=utf-8" hdrNoCache file
      invocations := [uploadPackArgs repoPath []] }

/-- Observable outcome of a completed `handleServiceRPC`: the response, the
backend invocations and the bytes written to the backend's standard
input. -/
structure RPCResult where
  resp : Response
  invocations : List Invocation
  stdinWritten : String
deriving DecidableEq

/-- main.go `handleServiceRPC` (lines 207-258).  `serviceType` and
`repoPath` come from the named URL parameters; `contentEncoding` is the
`Content-Encoding` request header; `rawBody` is the raw request body and
`gzipBody` the gzip oracle's outcome on it; `backendStdout` and
`backendStderr` are the bytes produced by the streamed backend process.

The denied branch calls `w.WriteHeader(403)` *before*
`w.Header().Set("Content-Type", ...)`, so the `Set` has no wire effect and
the handler returns with an empty body and no backend invocation.

The whole decoded body is read into memory first; only then is the backend
started, the body written to its input, and its standard output followed by
its standard error copied into the response (the `Content-Type` result
header having been set before the first copy commits status 200).

The result is `none` when the handler panics: when `gzip.NewReader` fails
it returns a nil `*gzip.Reader`, and the immediately following
`ioutil.ReadAll(reader)` calls `Read` on that nil pointer, a nil-pointer
dereference; net/http recovers the panic and aborts the request, so no
response is produced by the handler and the backend is never invoked.  A
mid-stream decompression failure, by contrast, is survived:
`ioutil.ReadAll` hands back what was read and the error is discarded. -/
def handleServiceRPC (cfg : GitSmartHTTPConfig) (serviceType repoPath : String)
    (contentEncoding rawBody : String) (gzipBody : GzipOutcome)
    (backendStdout backendStderr : String) : Option RPCResult :=
  if !(serviceAccess cfg serviceType) then
    let w := writeHeader initResponse 403
    let w := headerSet w "Content-Type" "text/plain"
    some { resp := w, invocations := [], stdinWritten := "" }
  else
    let reqBody? : Option String :=
      if contentEncoding == "gzip" then
        match gzipBody with
        | .ok data => some data
        | .headerError => none
        | .truncated readSoFar => some readSoFar
      else
        some rawBody
    match reqBody? with
    | none => none
    | some reqBody =>
      let inv := if serviceType == uploadPack then
          uploadPackArgs repoPath []
        else
          receivePackArgs repoPath []
      let w := headerSet initResponse "Content-Type"
        ("application/x-" ++ serviceType ++ "-result")
      let w := write w backendStdout
      let w := write w backendStderr
      some { resp := w, invocations := [inv], stdinWritten := reqBody }

/-! ### Route table and dispatcher (main.go, `NewGitSmartHTTP` / `ServeHTTP`)

Every route pattern of `NewGitSmartHTTP` has the shape
`(?P<repoPath>.*)X$` (the two POST patterns put a second named group around
a literal part of `X`), where `X` is a concatenation of literal characters
and `[0-9a-f]` character classes.  Under Go RE2 semantics `MatchString` is
unanchored on the left, `$` (without the `m` flag) anchors the end of the
text, and `.*` may match the empty string — so such a pattern matches a
path if and only if the path's last `|X|` characters match `X` position by
position (the `.*`, which can always be taken empty, places no further
constraint).  A pattern is therefore embedded as the list of character
classes of its tail `X`. -/

/-- One position of a route pattern tail: a literal character or the
character class `[0-9a-f]`. -/
inductive CharClass where
  | lit (c : Char)
  | hex
deriving DecidableEq

/-- Whether a character matches one pattern position. -/
def CharClass.matches : CharClass → Char → Bool
  | .lit c, d => c == d
  | .hex, d => (decide ('0' ≤ d ∧ d ≤ '9')) || (decide ('a' ≤ d ∧ d ≤ 'f'))

/-- The pattern tail consisting of the literal characters of `s`. -/
def mkLit (s : String) : List CharClass :=
  s.data.map CharClass.lit

/-- A run of `n` copies of the class `[0-9a-f]` (the regex `[0-9a-f]{n}`). -/
def hexRun (n : Nat) : List CharClass :=
  List.replicate n CharClass.hex

/-- Go `regexp.MatchString` for a route pattern `(?P<repoPath>.*)X$`:
true iff the path has at least `|X|` characters and its last `|X|`
characters match `X` position by position. -/
def patternMatches (pat : List CharClass) (path : String) : Bool :=
  let cs := path.data
  decide (pat.length ≤ cs.length) &&
    ((cs.drop (cs.length - pat.length)).zip pat).all (fun p => p.2.matches p.1)

/-- Identity of a handler bound by `NewGitSmartHTTP`; the Go handlers are
methods of `GitSmartHTTP`, identified here by name (`handleTextFile` is
bound by three routes). -/
inductive HandlerId where
  | textFile
  | infoPacks
  | infoRefs
  | looseObject
  | packFile
  | idxFile
  | serviceRPC
deriving DecidableEq

/-- main.go `Service` (lines 34-38), with the compiled regexp replaced by
the embedded pattern tail and the handler function by its identity. -/
structure Service where
  Method : String
  Pattern : List CharClass
  Handler : HandlerId
deriving DecidableEq

/-- The route table built by `NewGitSmartHTTP` (main.go lines 76-127), in
construction order. -/
def gitServices : List Service :=
  [ { Method := "GET", Pattern := mkLit "/HEAD", Handler := .textFile },
    { Method := "GET", Pattern := mkLit "/info/packs", Handler := .infoPacks },
    { Method := "GET", Pattern := mkLit "/info/refs", Handler := .infoRefs },
    { Method := "GET", Pattern := mkLit "/objects/info/alternates", Handler := .textFile },
    { Method := "GET", Pattern := mkLit "/objects/info/http-alternates", Handler := .textFile },
    { Method := "GET", Pattern := mkLit "/objects/" ++ hexRun 2 ++ mkLit "/" ++ hexRun 38,
      Handler := .looseObject },
    { Method := "GET", Pattern := mkLit "/objects/pack/pack-" ++ hexRun 40 ++ mkLit ".pack",
      Handler := .packFile },
    { Method := "GET", Pattern := mkLit "/objects/pack/pack-" ++ hexRun 40 ++ mkLit ".idx",
      Handler := .idxFile },
    { Method := "POST", Pattern := mkLit "/git-upload-pack", Handler := .serviceRPC },
    { Method := "POST", Pattern := mkLit "/git-receive-pack", Handler := .serviceRPC } ]

/-- What the dispatcher does with a request. -/
inductive Outcome where
  /-- the handler bound to a matching route was invoked -/
  | handled (h : HandlerId)
  /-- `methodNotAllowed` wrote this response; no handler was invoked -/
  | rejected (resp : Response)
  /-- no pattern matched: the loop falls through and the dispatcher writes
  nothing at all -/
  | untouched
deriving DecidableEq

/-- main.go `ServeHTTP` (lines 132-146): scan the services in order; at the
first pattern match, invoke the bound handler when the method agrees and
`methodNotAllowed` otherwise, then stop.  (The initial log line is a side
effect outside the response and is not modelled.) -/
def serveHTTP (services : List Service) (method proto path : String) : Outcome :=
  match services with
  | [] => .untouched
  | s :: rest =>
    if patternMatches s.Pattern path then
      if method == s.Method then .handled s.Handler
      else .rejected (methodNotAllowed proto)
    else
      serveHTTP rest method proto path

/-- The first service whose pattern matches the path. -/
def firstMatch (services : List Service) (path : String) : Option Service :=
  services.find? (fun s => patternMatches s.Pattern path)

/-- A concrete 65532-character ASCII string; `len + 4 = 0x10000` needs five
hexadecimal digits, which exercises the `%04s` minimum width. -/
def longA : String :=
  String.mk (List.replicate 65532 'a')

/-! ### Helper lemmas about strings and the embedding -/

theorem str_length_mk (l : List Char) : (String.mk l).length = l.length :=
  rfl

theorem str_data_append (a b : String) : (a ++ b).data = a.data ++ b.data := by
  cases a
  cases b
  rfl

theorem str_length_append (a b : String) : (a ++ b).length = a.length + b.length := by
  cases a
  cases b
  show (List.length _) = _
  simp [str_data_append, String.length]

theorem str_append_assoc (a b c : String) : (a ++ b) ++ c = a ++ (b ++ c) := by
  cases a
  cases b
  cases c
  show String.mk _ = String.mk _
  simp

theorem str_empty_append (a : String) : "" ++ a = a := by
  cases a
  rfl

theorem str_append_empty (a : String) : a ++ "" = a := by
  cases a
  show String.mk _ = String.mk _
  simp

theorem utf8ByteSize_replicate_a (n : Nat) :
    (String.mk (List.replicate n 'a')).utf8ByteSize = n := by
  induction n with
  | zero => rfl
  | succ n ih =>
    rw [List.replicate_succ]
    show String.utf8ByteSize.go (List.replicate n 'a') + 'a'.utf8Size = n + 1
    have ih' : String.utf8ByteSize.go (List.replicate n 'a') = n := ih
    have h1 : 'a'.utf8Size = 1 := by decide
    rw [ih', h1]

theorem toDigits16_length_le (n : Nat) (h : n < 65536) :
    (Nat.toDigits 16 n).length ≤ 4 := by
  have h16 : n < 16 ^ 4 := by
    have : (16 : Nat) ^ 4 = 65536 := by norm_num
    omega
  exact Nat.toDigitsCore_length 16 (by norm_num) (n + 1) n 4 h16 (by norm_num)

theorem goMapIndex_rpc (k : String) :
    goMapIndex rpcTranslation k =
      if k = "advertise_refs" then "--advertise-refs" else "" := by
  by_cases h : k = "advertise_refs"
  · subst h
    rfl
  · have hb : (("advertise_refs" : String) == k) = false := by
      simp [Ne.symm h]
    simp [goMapIndex, rpcTranslation, List.find?, hb, h]

theorem serveHTTP_eq_firstMatch (services : List Service) (method proto path : String) :
    serveHTTP services method proto path =
      match firstMatch services path with
      | some s =>
        if method == s.Method then Outcome.handled s.Handler
        else Outcome.rejected (methodNotAllowed proto)
      | none => Outcome.untouched := by
  induction services with
  | nil => rfl
  | cons s rest ih =>
    cases hp : patternMatches s.Pattern path with
    | true => simp [serveHTTP, firstMatch, List.find?, hp]
    | false =>
      simp only [serveHTTP, firstMatch, List.find?, hp, Bool.false_eq_true, if_false]
      simpa [firstMatch] using ih

/-! ### Claim C4 — the frame codec -/

/-- C4, counterexample.  The claim says the prefix of `pkt_write(s)` is
zero-padded to *exactly* 4 characters for every string `s`.  For the
65532-character string `longA`, `len + 4 = 65536 = 0x10000` takes five hex
digits, and Go's `%04s` is a minimum width that never truncates, so the
prefix has five characters and the total length is `len + 5`, not
`len + 4`. -/
theorem pktWrite_exactly_four_counterexample :
    (pktWrite longA).length ≠ longA.length + 4 := by
  have hsize : longA.utf8ByteSize = 65532 := utf8ByteSize_replicate_a 65532
  have hlen : longA.length = 65532 := by
    rw [longA, str_length_mk, List.length_replicate]
  have h1 : pktWrite longA = "10000" ++ longA := by
    rw [pktWrite, hsize]
    have : sprintf04s (formatIntHex (65532 + 4)) = "10000" := by decide
    rw [this]
  rw [h1, str_length_append, hlen]
  decide

/-- C4, amended.  `pkt_write(s)` is the hexadecimal representation of
`len(s) + 4`, left-padded with `'0'` to a *minimum* width of 4 (so exactly 4
characters whenever `len(s) + 4 ≤ 0xffff`, which holds for every frame the
program emits), concatenated with `s`; `pkt_write("abc\n") = "0008abc\n"`;
and `pkt_flush()` is exactly `"0000"`. -/
theorem pktWrite_pktFlush_spec :
    (∀ s : String, s.utf8ByteSize + 4 ≤ 65535 →
        pktWrite s = sprintf04s (formatIntHex (s.utf8ByteSize + 4)) ++ s ∧
        (sprintf04s (formatIntHex (s.utf8ByteSize + 4))).length = 4) ∧
    pktWrite "abc\n" = "0008abc\n" ∧
    pktFlush = "0000" := by
  refine ⟨fun s hs => ⟨rfl, ?_⟩, by decide, rfl⟩
  have h4 : (formatIntHex (s.utf8ByteSize + 4)).length ≤ 4 := by
    rw [formatIntHex, str_length_mk]
    exact toDigits16_length_le _ (by omega)
  rw [sprintf04s, str_length_append, str_length_mk, List.length_replicate]
  omega

/-- C4 witness: the amended theorem applied to `"abc\n"`. -/
theorem pktWrite_pktFlush_spec_witness :
    "abc\n".utf8ByteSize + 4 ≤ 65535 ∧
    (sprintf04s (formatIntHex ("abc\n".utf8ByteSize + 4))).length = 4 :=
  ⟨by decide, (pktWrite_pktFlush_spec.1 "abc\n" (by decide)).2⟩

/-! ### Claim C2 — first-match-wins dispatch -/

/-- C2: for every request, the patterns of the route table are scanned in
construction order and the dispatcher's outcome is decided by the first
pattern that matches the path — the bound handler when the method agrees
(so a handler bound to a later pattern is reached only when no earlier
pattern matches, no matter how many patterns would match), and when no
pattern matches, no handler is invoked and the dispatcher writes nothing. -/
theorem dispatch_first_match_wins (method proto path : String) :
    (∀ s : Service, firstMatch gitServices path = some s →
        serveHTTP gitServices method proto path =
          if method == s.Method then Outcome.handled s.Handler
          else Outcome.rejected (methodNotAllowed proto)) ∧
    (firstMatch gitServices path = none →
        serveHTTP gitServices method proto path = Outcome.untouched) := by
  constructor
  · intro s hs
    rw [serveHTTP_eq_firstMatch, hs]
  · intro hn
    rw [serveHTTP_eq_firstMatch, hn]

/-- C2 witness: `GET /r/HEAD` is dispatched to the text-file handler bound
to the first route. -/
theorem dispatch_first_match_wins_witness :
    serveHTTP gitServices "GET" "HTTP/1.1" "/r/HEAD" = Outcome.handled HandlerId.textFile := by
  have h := (dispatch_first_match_wins "GET" "HTTP/1.1" "/r/HEAD").1
    { Method := "GET", Pattern := mkLit "/HEAD", Handler := .textFile } (by decide)
  exact h.trans (by decide)

/-! ### Claim C3 — method mismatch -/

/-- C3: when the path matches a route (the first matching one decides) but
the method differs from that route's declared method, the dispatcher
responds with the `methodNotAllowed` response — status 405 when the
protocol string is exactly `"HTTP/1.1"` and 400 otherwise — and invokes no
handler. -/
theorem dispatch_method_mismatch (method proto path : String) (s : Service)
    (h1 : firstMatch gitServices path = some s) (h2 : method ≠ s.Method) :
    serveHTTP gitServices method proto path = Outcome.rejected (methodNotAllowed proto) ∧
    (methodNotAllowed proto).status = (if proto = "HTTP/1.1" then 405 else 400) ∧
    (∀ hid : HandlerId, serveHTTP gitServices method proto path ≠ Outcome.handled hid) := by
  have he : serveHTTP gitServices method proto path = Outcome.rejected (methodNotAllowed proto) := by
    rw [serveHTTP_eq_firstMatch, h1]
    simp [h2]
  refine ⟨he, ?_, ?_⟩
  · by_cases hp : proto = "HTTP/1.1"
    · simp [methodNotAllowed, hp, headerSet, writeHeader, initResponse, setAssoc]
    · simp [methodNotAllowed, hp, headerSet, writeHeader, initResponse, setAssoc]
  · intro hid hcontra
    rw [he] at hcontra
    exact Outcome.noConfusion hcontra

/-- C3 witness: `POST /r/HEAD` over HTTP/1.0 is rejected with status 400. -/
theorem dispatch_method_mismatch_witness :
    serveHTTP gitServices "POST" "HTTP/1.0" "/r/HEAD" =
      Outcome.rejected (methodNotAllowed "HTTP/1.0") ∧
    (methodNotAllowed "HTTP/1.0").status = 400 := by
  have h := dispatch_method_mismatch "POST" "HTTP/1.0" "/r/HEAD"
    { Method := "GET", Pattern := mkLit "/HEAD", Handler := .textFile } (by decide) (by decide)
  exact ⟨h.1, h.2.1.trans (by decide)⟩

/-! ### Claim C8 — backend command-line construction -/

/-- C8, counterexample.  The claim says option keys missing from the
translation map are silently ignored and contribute no argument.  In fact
the Go map lookup `gs.RPCConfig[k]` yields the zero value `""` for a
missing key, and that empty string *is* appended to the argument vector. -/
theorem rpcArgs_unknown_key_counterexample :
    uploadPackArgs "/repos/a.git" ["bogus"] =
      ["upload-pack", "", "--stateless-rpc", "/repos/a.git"] ∧
    uploadPackArgs "/repos/a.git" ["bogus"] ≠
      ["upload-pack", "--stateless-rpc", "/repos/a.git"] := by
  decide

/-- C8, amended.  For every verb, repository path and option sequence, the
command line is the verb, then one argument per option key — the key
`"advertise_refs"` translating to `"--advertise-refs"` and any key absent
from the translation map contributing the empty-string argument (the Go
zero value of a missing map entry) — then `"--stateless-rpc"` and the
repository path as the final arguments; the three RPC verbs all build their
argument vectors this way. -/
theorem rpcArgs_spec (verb repoPath : String) (cfg : List String) :
    buildArgs verb cfg repoPath =
      verb :: (cfg.map (fun k => if k = "advertise_refs" then "--advertise-refs" else "")
        ++ ["--stateless-rpc", repoPath]) ∧
    uploadPackArgs repoPath cfg = buildArgs "upload-pack" cfg repoPath ∧
    receivePackArgs repoPath cfg = buildArgs "receive-pack" cfg repoPath ∧
    updateServerInfoArgs repoPath cfg = buildArgs "update-server-info" cfg repoPath := by
  refine ⟨?_, rfl, rfl, rfl⟩
  rw [buildArgs, funext goMapIndex_rpc]

/-! ### Claim C9 — working directory of update-server-info -/

/-- C9 (code bug), evaluated at the failing input `cwd = "/srv"`,
`repoPath = "/repos/a.git"`.  The prior working directory *is* restored on
every exit path (the deferred restore), but precisely because the deferred
`os.Chdir(pwd)` runs when `UpdateServerInfo` returns — and the function only
*constructs* the command, with `exec.Command` recording no directory — the
restore has already happened by the time any caller starts the backend
process.  The backend therefore runs in the original directory, not in the
target repository, contradicting the claim that the working directory is
the target repository for the duration of the backend call. -/
theorem updateServerInfo_cwd_trace :
    (updateServerInfo "/srv" "/repos/a.git" []).cwdDuringConstruction = "/repos/a.git" ∧
    (updateServerInfo "/srv" "/repos/a.git" []).cwdAfterReturn = "/srv" ∧
    (updateServerInfo "/srv" "/repos/a.git" []).cwdAfterReturn ≠ "/repos/a.git" ∧
    (updateServerInfo "/srv" "/repos/a.git" []).args =
      ["update-server-info", "--stateless-rpc", "/repos/a.git"] := by
  decide

/-! ### Claim C1 — smart ref advertisement -/

/-- C1: when upload-pack access is enabled, a `GET .../info/refs` request
with `service=git-upload-pack` is answered with status 200, with
`Content-Type: application/x-git-upload-pack-advertisement` and the
no-cache headers, and with a body that is exactly the pkt-line encoding of
`"# service=git-upload-pack\n"`, then the flush marker `"0000"`, then the
bytes captured from the buffered advertise-refs backend call, in that
order; the one backend invocation is `upload-pack --advertise-refs
--stateless-rpc <repoPath>`. -/
theorem infoRefs_smart_upload_advertisement (cfg : GitSmartHTTPConfig)
    (repoPath refs : String) (ok : Bool) (file : Option FileStat)
    (h : cfg.UploadPack = true) :
    (handleInfoRefs cfg uploadPack repoPath ⟨refs, ok⟩ file).resp.status = 200 ∧
    headerGet (handleInfoRefs cfg uploadPack repoPath ⟨refs, ok⟩ file).resp "Content-Type" =
      some "application/x-git-upload-pack-advertisement" ∧
    headerGet (handleInfoRefs cfg uploadPack repoPath ⟨refs, ok⟩ file).resp "Expires" =
      some "Fri, 01 Jan 1980 00:00:00 GMT" ∧
    headerGet (handleInfoRefs cfg uploadPack repoPath ⟨refs, ok⟩ file).resp "Pragma" =
      some "no-cache" ∧
    headerGet (handleInfoRefs cfg uploadPack repoPath ⟨refs, ok⟩ file).resp "Cache-Control" =
      some "no-cache, max-age=0, must-revalidate" ∧
    (handleInfoRefs cfg uploadPack repoPath ⟨refs, ok⟩ file).resp.body =
      pktWrite "# service=git-upload-pack\n" ++ pktFlush ++ refs ∧
    (handleInfoRefs cfg uploadPack repoPath ⟨refs, ok⟩ file).resp.body =
      "001e# service=git-upload-pack\n0000" ++ refs ∧
    (handleInfoRefs cfg uploadPack repoPath ⟨refs, ok⟩ file).invocations =
      [["upload-pack", "--advertise-refs", "--stateless-rpc", repoPath]] := by
  have hacc : serviceAccess cfg uploadPack = true := by
    simp [serviceAccess, h]
  have key : handleInfoRefs cfg uploadPack repoPath ⟨refs, ok⟩ file =
      { resp := { status := 200,
                  headers := [("Content-Type", "application/x-git-upload-pack-advertisement"),
                              ("Expires", "Fri, 01 Jan 1980 00:00:00 GMT"),
                              ("Pragma", "no-cache"),
                              ("Cache-Control", "no-cache, max-age=0, must-revalidate")],
                  body := "001e# service=git-upload-pack\n0000" ++ refs,
                  committed := true },
        invocations := [["upload-pack", "--advertise-refs", "--stateless-rpc", repoPath]] } := by
    rw [handleInfoRefs, hacc]
    rfl
  rw [key]
  refine ⟨rfl, rfl, rfl, rfl, rfl, ?_, rfl, rfl⟩
  exact Eq.trans (by rfl) (str_append_assoc "001e# service=git-upload-pack\n" "0000" refs)

/-- C1 witness. -/
theorem infoRefs_smart_upload_advertisement_witness :
    (handleInfoRefs ⟨"/repos", true, true, 8080⟩ uploadPack "/repos/a.git"
        ⟨"REFS", true⟩ none).resp.body = "001e# service=git-upload-pack\n0000REFS" := by
  have h := infoRefs_smart_upload_advertisement ⟨"/repos", true, true, 8080⟩
    "/repos/a.git" "REFS" true none rfl
  exact h.2.2.2.2.2.2.1.trans (by decide)

/-! ### Claim C5 — dumb fallback of the info/refs handler -/

/-- C5, counterexample.  The claim says the discarded call of the denied
branch runs in advertise-refs-only mode.  It does not: the code passes an
empty option set, so the argument vector of the discarded `upload-pack`
invocation contains no `"--advertise-refs"` flag. -/
theorem infoRefs_dumb_call_counterexample :
    (handleInfoRefs ⟨"/repos", false, false, 8080⟩ uploadPack "/repos/a.git"
        ⟨"", true⟩ none).invocations = [["upload-pack", "--stateless-rpc", "/repos/a.git"]] ∧
    "--advertise-refs" ∉ ((handleInfoRefs ⟨"/repos", false, false, 8080⟩ uploadPack
        "/repos/a.git" ⟨"", true⟩ none).invocations.headD []) := by
  decide

/-- C5, amended.  For every `GET .../info/refs` request whose requested
service is denied by `serviceAccess`, the handler runs one `upload-pack`
call with an *empty* option set (so without the advertise-refs flag) whose
result is discarded, and then serves the `info/refs` file as a plain static
file (`text/plain; charset=utf-8`) with the no-cache headers instead of the
smart-advertisement framing: when the file exists the body is its raw
contents with status 200. -/
theorem infoRefs_dumb_fallback (cfg : GitSmartHTTPConfig) (svc repoPath : String)
    (backend : BackendResult) (file : Option FileStat)
    (hacc : serviceAccess cfg svc = false) :
    handleInfoRefs cfg svc repoPath backend file =
      { resp := sendFile initResponse "text/plain; charset=utf-8" hdrNoCache file,
        invocations := [["upload-pack", "--stateless-rpc", repoPath]] } ∧
    (∀ f : FileStat, file = some f →
        (handleInfoRefs cfg svc repoPath backend file).resp.body = f.contents ∧
        (handleInfoRefs cfg svc repoPath backend file).resp.status = 200 ∧
        headerGet (handleInfoRefs cfg svc repoPath backend file).resp "Cache-Control" =
          some "no-cache, max-age=0, must-revalidate") := by
  have key : handleInfoRefs cfg svc repoPath backend file =
      { resp := sendFile initResponse "text/plain; charset=utf-8" hdrNoCache file,
        invocations := [["upload-pack", "--stateless-rpc", repoPath]] } := by
    rw [handleInfoRefs, hacc]
    rfl
  refine ⟨key, fun f hf => ?_⟩
  subst hf
  rw [key]
  exact ⟨str_empty_append f.contents, rfl, rfl⟩

/-- C5 witness: with both capabilities disabled, the fallback body is the
raw file contents. -/
theorem infoRefs_dumb_fallback_witness :
    (handleInfoRefs ⟨"/repos", false, false, 8080⟩ uploadPack "/repos/a.git" ⟨"", true⟩
        (some ⟨"dumb refs\n", 10, "mtime"⟩)).resp.body = "dumb refs\n" := by
  have h := infoRefs_dumb_fallback ⟨"/repos", false, false, 8080⟩ uploadPack "/repos/a.git"
    ⟨"", true⟩ (some ⟨"dumb refs\n", 10, "mtime"⟩) (by decide)
  exact (h.2 ⟨"dumb refs\n", 10, "mtime"⟩ rfl).1

/-! ### Claim C6 — denied service RPC -/

/-- C6 (code bug), evaluated at the failing input: a `POST
.../git-upload-pack` with upload-pack disabled.  The response has status
403, an empty body, and no backend invocation — but it carries *no*
`Content-Type` header, because the code calls
`w.Header().Set("Content-Type", "text/plain")` only after
`w.WriteHeader(403)`, and header-map changes after `WriteHeader` have no
effect on the wire. -/
theorem serviceRPC_denied_response :
    (handleServiceRPC ⟨"/repos", true, false, 8080⟩ uploadPack "/repos/a.git" "" "body"
        (.ok "body") "out" "err").map
      (fun r => (r.resp.status, headerGet r.resp "Content-Type", r.resp.body, r.invocations)) =
      some (403, none, "", []) := by
  decide

/-! ### Claim C7 — gzip-encoded request bodies -/

/-- C7 (code bug), evaluated at the failing input: a gzip-encoded body
whose stream header is invalid (for example the literal bytes
`"notgzip"`).  `gzip.NewReader` then returns a nil reader together with the
error; the error is logged, but the immediately following
`ioutil.ReadAll(reader)` dereferences the nil reader and panics, so the
request aborts (`none`) and nothing reaches the backend — contradicting the
claim that the handler continues with whatever could be read.  The parts of
the claim the code does satisfy are also evaluated: a well-formed gzip body
is fully decompressed into memory and forwarded to the backend's input, and
a *mid-stream* decompression failure degrades to forwarding the partial
data. -/
theorem serviceRPC_gzip_outcomes :
    handleServiceRPC ⟨"/repos", true, true, 8080⟩ receivePack "/repos/a.git" "gzip" "notgzip"
      .headerError "out" "err" = none ∧
    (handleServiceRPC ⟨"/repos", true, true, 8080⟩ receivePack "/repos/a.git" "gzip" "gz"
        (.ok "unpacked") "out" "err").map RPCResult.stdinWritten = some "unpacked" ∧
    (handleServiceRPC ⟨"/repos", true, true, 8080⟩ receivePack "/repos/a.git" "gzip" "gz"
        (.truncated "half") "out" "err").map RPCResult.stdinWritten = some "half" := by
  decide

/-! ### Claim C10 — backend failure in the granted info/refs branch -/

/-- C10, counterexample.  The claim says that on backend failure the body
is just the announcement line plus `"0000"` with no ref data.  But
`exec.Cmd.Output` returns the bytes captured before the failure together
with the error, and the handler appends them regardless: with a backend
that wrote `"junk"` and then failed (`ok = false`), the body strictly
extends the framing. -/
theorem infoRefs_failed_backend_counterexample :
    (handleInfoRefs ⟨"/repos", true, true, 8080⟩ uploadPack "/repos/a.git"
        ⟨"junk", false⟩ none).resp.body ≠
      pktWrite "# service=git-upload-pack\n" ++ pktFlush := by
  decide

/-- C10, amended.  In the access-granted branch the `Output` error is
discarded: status 200, the advertisement `Content-Type`, the announcement
pkt-line and the flush marker are emitted regardless of whether the backend
call succeeds, followed by whatever bytes the call captured — so when the
failed call captured nothing (for example the process could not be
spawned), the client receives a 200 response whose body is exactly the
announcement line plus `"0000"`. -/
theorem infoRefs_advertisement_ignores_backend_error (cfg : GitSmartHTTPConfig)
    (svc repoPath out : String) (ok : Bool) (file : Option FileStat)
    (hacc : serviceAccess cfg svc = true) :
    (handleInfoRefs cfg svc repoPath ⟨out, ok⟩ file).resp.status = 200 ∧
    headerGet (handleInfoRefs cfg svc repoPath ⟨out, ok⟩ file).resp "Content-Type" =
      some ("application/x-" ++ svc ++ "-advertisement") ∧
    (handleInfoRefs cfg svc repoPath ⟨out, ok⟩ file).resp.body =
      pktWrite ("# service=" ++ svc ++ "\n") ++ pktFlush ++ out ∧
    (out = "" → (handleInfoRefs cfg svc repoPath ⟨out, ok⟩ file).resp.body =
      pktWrite ("# service=" ++ svc ++ "\n") ++ pktFlush) := by
  have key : handleInfoRefs cfg svc repoPath ⟨out, ok⟩ file =
      { resp := { status := 200,
                  headers := [("Content-Type", "application/x-" ++ svc ++ "-advertisement"),
                              ("Expires", "Fri, 01 Jan 1980 00:00:00 GMT"),
                              ("Pragma", "no-cache"),
                              ("Cache-Control", "no-cache, max-age=0, must-revalidate")],
                  body := (pktWrite ("# service=" ++ svc ++ "\n") ++ pktFlush) ++ out,
                  committed := true },
        invocations := [if svc == uploadPack then uploadPackArgs repoPath ["advertise_refs"]
                        else receivePackArgs repoPath ["advertise_refs"]] } := by
    rw [handleInfoRefs, hacc]
    rfl
  rw [key]
  refine ⟨rfl, rfl, rfl, fun ho => ?_⟩
  subst ho
  exact str_append_empty (pktWrite ("# service=" ++ svc ++ "\n") ++ pktFlush)

/-- C10 witness: a failed backend call that captured no bytes yields
exactly the framing. -/
theorem infoRefs_advertisement_ignores_backend_error_witness :
    (handleInfoRefs ⟨"/repos", true, true, 8080⟩ uploadPack "/repos/a.git"
        ⟨"", false⟩ none).resp.body =
      pktWrite "# service=git-upload-pack\n" ++ pktFlush := by
  have h := infoRefs_advertisement_ignores_backend_error ⟨"/repos", true, true, 8080⟩
    uploadPack "/repos/a.git" "" false none (by decide)
  exact h.2.2.2 rfl

end GitHttpBackend
